import Mathlib

/-!
Verification of the AI-Maintenance-Predictor dashboard client
(src/frontend/src/App.jsx) against its specification.

Modelling conventions:
* JavaScript numbers are modelled by `JSNum`: an exact rational together
  with the IEEE special values Infinity, -Infinity and NaN.  Arithmetic on
  the finite fragment is exact (no rounding, no overflow, no signed zero);
  the special values follow the ECMAScript rules for `*`, `-` and `/`.
* React state updates are modelled as pure state transitions on an
  `AppState` record mirroring the component's `useState` hooks.  The
  outcome of the awaited scoring request is an explicit `Except` argument,
  and each handler also returns the list of request payloads it posts, so
  that "no call is made" and "exactly one call is made" are statable.
* `Array.prototype.sort` is called with the comparator
  `RISK_ORDER[b.risk_level] - RISK_ORDER[a.risk_level]`; ECMAScript sort is
  stable, and for a consistent comparator a stable sort has a unique
  result, modelled here by a stable insertion sort (`jsSort`).  A NaN
  comparator result is treated as 0, as in the SortCompare specification.
* Views are modelled by the data they render: the table view by its row
  list, the health summary by its bar-chart bucket list; the empty-registry
  early return renders no rows and no buckets.
-/

namespace MaintApp

/-- JavaScript number: an exact rational, or one of the IEEE special values. -/
inductive JSNum where
  | fin (q : ℚ)
  | inf
  | negInf
  | nan
deriving DecidableEq, Repr

namespace JSNum

/-- Finiteness test, as in `Number.isFinite`. -/
def isFinite : JSNum → Bool
  | fin _ => true
  | _ => false

/-- NaN test, as in `Number.isNaN`. -/
def isNaN : JSNum → Bool
  | nan => true
  | _ => false

/-- JavaScript multiplication on `JSNum`. -/
def mul : JSNum → JSNum → JSNum
  | nan, _ => nan
  | _, nan => nan
  | fin a, fin b => fin (a * b)
  | inf, fin b => if 0 < b then inf else if b < 0 then negInf else nan
  | fin a, inf => if 0 < a then inf else if a < 0 then negInf else nan
  | negInf, fin b => if 0 < b then negInf else if b < 0 then inf else nan
  | fin a, negInf => if 0 < a then negInf else if a < 0 then inf else nan
  | inf, inf => inf
  | inf, negInf => negInf
  | negInf, inf => negInf
  | negInf, negInf => inf

/-- JavaScript subtraction on `JSNum`. -/
def sub : JSNum → JSNum → JSNum
  | nan, _ => nan
  | _, nan => nan
  | fin a, fin b => fin (a - b)
  | inf, fin _ => inf
  | fin _, inf => negInf
  | negInf, fin _ => negInf
  | fin _, negInf => inf
  | inf, inf => nan
  | negInf, negInf => nan
  | inf, negInf => inf
  | negInf, inf => negInf

/-- JavaScript division on `JSNum` (signed zero is not modelled, so a finite
    numerator divided by zero follows the sign of the numerator). -/
def div : JSNum → JSNum → JSNum
  | nan, _ => nan
  | _, nan => nan
  | fin a, fin b =>
      if b = 0 then (if a = 0 then nan else if 0 < a then inf else negInf)
      else fin (a / b)
  | inf, fin b => if b < 0 then negInf else inf
  | negInf, fin b => if b < 0 then inf else negInf
  | fin _, inf => fin 0
  | fin _, negInf => fin 0
  | inf, inf => nan
  | inf, negInf => nan
  | negInf, inf => nan
  | negInf, negInf => nan

end JSNum

instance : Mul JSNum := ⟨JSNum.mul⟩

instance : Sub JSNum := ⟨JSNum.sub⟩

instance : Div JSNum := ⟨JSNum.div⟩

/-- Numeric value of a digit character. -/
def digitsVal (l : List Char) : Nat :=
  l.foldl (fun n c => 10 * n + (c.toNat - 48)) 0

/-- Value of a decimal literal with integer digits `I`, fraction digits `F`
    and exponent `e`. -/
def decValue (I F : List Char) (e : Int) : ℚ :=
  let m : ℚ := (digitsVal (I ++ F) : ℚ)
  let sh : Int := e - (F.length : Int)
  if 0 ≤ sh then m * (10 : ℚ) ^ sh.toNat else m / (10 : ℚ) ^ (-sh).toNat

/-- Exponent part of a decimal literal, if the remaining characters start
    with one; an exponent marker not followed by digits contributes 0, as
    parseFloat only consumes the longest valid literal. -/
def parseExpPart : List Char → Int
  | [] => 0
  | c :: rest =>
    if c = 'e' ∨ c = 'E' then
      match rest with
      | '+' :: r2 =>
          let d := r2.takeWhile Char.isDigit
          if d = [] then 0 else (digitsVal d : Int)
      | '-' :: r2 =>
          let d := r2.takeWhile Char.isDigit
          if d = [] then 0 else -(digitsVal d : Int)
      | r2 =>
          let d := r2.takeWhile Char.isDigit
          if d = [] then 0 else (digitsVal d : Int)
    else 0

/-- Unsigned decimal literal at the front of `l`: digits, an optional dot
    with further digits, and an optional exponent; `none` when no digit is
    present before the exponent position. -/
def parseUnsigned (l : List Char) : Option ℚ :=
  let I := l.takeWhile Char.isDigit
  let r1 := l.dropWhile Char.isDigit
  match r1 with
  | '.' :: rest =>
      let F := rest.takeWhile Char.isDigit
      let r2 := rest.dropWhile Char.isDigit
      if I = [] ∧ F = [] then none else some (decValue I F (parseExpPart r2))
  | _ =>
      if I = [] then none else some (decValue I [] (parseExpPart r1))

/-- Signed part of `parseFloat`, after leading whitespace has been removed. -/
def parseSigned (neg : Bool) (l : List Char) : JSNum :=
  if "Infinity".toList.isPrefixOf l then
    (if neg then JSNum.negInf else JSNum.inf)
  else
    match parseUnsigned l with
    | some q => JSNum.fin (if neg then -q else q)
    | none => JSNum.nan

/-- ECMAScript `parseFloat` on a character list. -/
def parseFloatChars (l : List Char) : JSNum :=
  match l.dropWhile Char.isWhitespace with
  | '+' :: r => parseSigned false r
  | '-' :: r => parseSigned true r
  | r => parseSigned false r

/-- ECMAScript `parseFloat` applied to a string-or-null value; `null` and
    `undefined` stringify to non-numeric text and give NaN. -/
def parseFloatJS : Option String → JSNum
  | none => JSNum.nan
  | some s => parseFloatChars s.toList

/-- Form state of the single-asset predictor (the `form` useState hook). -/
structure Form where
  uid : String
  air_temperature_k : JSNum
  process_temperature_k : JSNum
  rotational_speed_rpm : JSNum
  torque_nm : JSNum
  tool_wear_min : JSNum
  type : String
deriving DecidableEq, Repr

/-- Response of the scoring endpoint. -/
structure PredictionResult where
  failure_probability : JSNum
  risk_level : String
deriving DecidableEq, Repr

/-- Registry entry: last submitted reading fields for a machine id together
    with its most recent prediction. -/
structure Asset where
  id : String
  type : String
  torque_nm : JSNum
  air_temperature_k : JSNum
  tool_wear_min : JSNum
  failure_probability : JSNum
  risk_level : String
deriving DecidableEq, Repr

/-- Request body posted to the scoring endpoint by handleSubmit. -/
structure Payload where
  air_temperature_k : JSNum
  process_temperature_k : JSNum
  rotational_speed_rpm : JSNum
  torque_nm : JSNum
  tool_wear_min : JSNum
  power : JSNum
  power_wear : JSNum
  temperature_difference : JSNum
  temperature_power : JSNum
  type_l : Nat
  type_m : Nat
  type : String
deriving DecidableEq, Repr

/-- Component state: the useState hooks of the App component. -/
structure AppState where
  form : Form
  result : Option PredictionResult
  loading : Bool
  error : String
  csvError : String
  assets : List Asset
deriving DecidableEq, Repr

/-- Initial component state, from the useState initialisers. -/
def initAppState : AppState :=
  { form :=
      { uid := "M14860"
        air_temperature_k := JSNum.fin 300
        process_temperature_k := JSNum.fin 310
        rotational_speed_rpm := JSNum.fin 1500
        torque_nm := JSNum.fin 40
        tool_wear_min := JSNum.fin 5
        type := "H" }
    result := none
    loading := false
    error := ""
    csvError := ""
    assets := [] }

/-- Feature derivation and payload construction of handleSubmit
    (App.jsx lines 71-95). -/
def mkPayload (f : Form) : Payload :=
  let power := f.rotational_speed_rpm * f.torque_nm
  let temperature_difference := f.process_temperature_k - f.air_temperature_k
  let power_wear := power * f.tool_wear_min
  let temperature_power := temperature_difference / power
  let type_l := if f.type = "L" then 1 else 0
  let type_m := if f.type = "M" then 1 else 0
  { air_temperature_k := f.air_temperature_k
    process_temperature_k := f.process_temperature_k
    rotational_speed_rpm := f.rotational_speed_rpm
    torque_nm := f.torque_nm
    tool_wear_min := f.tool_wear_min
    power := power
    power_wear := power_wear
    temperature_difference := temperature_difference
    temperature_power := temperature_power
    type_l := type_l
    type_m := type_m
    type := f.type }

/-- Asset built from the current form and a successful prediction
    (the updatedAsset object of handleSubmit). -/
def mkAsset (f : Form) (data : PredictionResult) : Asset :=
  { id := f.uid
    type := f.type
    torque_nm := f.torque_nm
    air_temperature_k := f.air_temperature_k
    tool_wear_min := f.tool_wear_min
    failure_probability := data.failure_probability
    risk_level := data.risk_level }

/-- JavaScript Array.prototype.findIndex; the -1 result is modelled as none. -/
def findIndexOpt (p : Asset → Bool) : List Asset → Option Nat
  | [] => none
  | a :: rest => if p a then some 0 else (findIndexOpt p rest).map (· + 1)

/-- Registry update performed by the setAssets updater of handleSubmit:
    replace in place when an asset with the same id exists, append otherwise. -/
def upsertAssets (prev : List Asset) (u : Asset) : List Asset :=
  match findIndexOpt (fun a => a.id == u.id) prev with
  | some i => prev.set i u
  | none => prev ++ [u]

/-- Generic message shown when the scoring call fails. -/
def predictionErrorMsg : String := "Failed to fetch prediction. Check API connection."

/-- Net state transition of handleSubmit.  The awaited outcome of the single
    axios.post is the `resp` argument; the returned list holds the payloads
    posted during the submission (always exactly one). -/
def handleSubmit (s : AppState) (resp : Except String PredictionResult) :
    AppState × List Payload :=
  match resp with
  | Except.ok data =>
      ({ s with
          result := some data
          error := ""
          loading := false
          assets := upsertAssets s.assets (mkAsset s.form data) },
       [mkPayload s.form])
  | Except.error _ =>
      ({ s with
          result := none
          error := predictionErrorMsg
          loading := false },
       [mkPayload s.form])

/-- Form-field update of handleChange: uid and type stay strings, every
    other known field stores the parseFloat of the raw input text. -/
def setNumField (f : Form) (name : String) (v : JSNum) : Form :=
  if name = "air_temperature_k" then { f with air_temperature_k := v }
  else if name = "process_temperature_k" then { f with process_temperature_k := v }
  else if name = "rotational_speed_rpm" then { f with rotational_speed_rpm := v }
  else if name = "torque_nm" then { f with torque_nm := v }
  else if name = "tool_wear_min" then { f with tool_wear_min := v }
  else f

/-- State transition of handleChange for an input event with the given
    field name and raw string value. -/
def handleChange (s : AppState) (name value : String) : AppState :=
  if name = "uid" then { s with form := { s.form with uid := value } }
  else if name = "type" then { s with form := { s.form with type := value } }
  else { s with form := setNumField s.form name (parseFloatJS (some value)) }

/-- Whitespace trimming at both ends of a character list, as in
    String.prototype.trim. -/
def trimChars (l : List Char) : List Char :=
  ((l.dropWhile Char.isWhitespace).reverse.dropWhile Char.isWhitespace).reverse

/-- JavaScript String.prototype.trim. -/
def jsTrim (s : String) : String := String.mk (trimChars s.toList)

/-- Normalisation of CRLF line ends to LF, so that splitting on LF models
    the split on an LF with an optional preceding CR. -/
def replaceCRLF : List Char → List Char
  | [] => []
  | '\r' :: '\n' :: rest => '\n' :: replaceCRLF rest
  | c :: rest => c :: replaceCRLF rest

/-- JavaScript String.prototype.split on a single-character separator:
    empty fields are kept, and the empty string yields one empty field. -/
def splitOnChar (sep : Char) : List Char → List (List Char)
  | [] => [[]]
  | c :: rest =>
    match splitOnChar sep rest with
    | [] => [[]]
    | cur :: parts => if c = sep then [] :: cur :: parts else (c :: cur) :: parts

/-- Quote stripping of the CSV cell normaliser, the replace of the anchored
    quote pattern: one leading and one trailing double quote are removed
    when present. -/
def stripQuotesChars (l : List Char) : List Char :=
  let l1 := match l with
    | '"' :: rest => rest
    | other => other
  if l1.getLast? = some '"' then l1.dropLast else l1

/-- Cell list of one CSV line: split on commas, trim, strip quotes. -/
def parseCells (line : String) : List String :=
  (splitOnChar ',' line.toList).map (fun c => String.mk (stripQuotesChars (trimChars c)))

/-- Line splitting of handleCsvUpload: split on LF with an optional
    preceding CR. -/
def splitLines (text : String) : List String :=
  (splitOnChar '\n' (replaceCRLF text.toList)).map String.mk

/-- JavaScript Array.prototype.indexOf on a string list; the -1 result is
    modelled as none. -/
def indexOfOpt (x : String) : List String → Option Nat
  | [] => none
  | y :: ys => if y = x then some 0 else (indexOfOpt x ys).map (· + 1)

/-- Column lookup of handleCsvUpload: index of the column name in the
    header, then the data-row cell at that index; none models both the
    missing-column null and an out-of-range undefined. -/
def csvGet (header row : List String) (colName : String) : Option String :=
  match indexOfOpt colName header with
  | some idx => row[idx]?
  | none => none

/-- JavaScript || on string-or-null values: the empty string is falsy. -/
def jsOrStr (a b : Option String) : Option String :=
  match a with
  | some s => if s = "" then b else some s
  | none => b

/-- JavaScript || against a string default. -/
def jsGetD (a : Option String) (d : String) : String :=
  match a with
  | some s => if s = "" then d else s
  | none => d

/-- Falsiness of the uid value: null, undefined or the empty string. -/
def uidFalsy : Option String → Bool
  | some s => s = ""
  | none => true

/-- Message shown when the CSV text has fewer than two lines. -/
def csvShortMsg : String := "CSV must contain a header and at least one data row."

/-- Message shown when a required CSV column is missing or unparseable. -/
def csvMapMsg : String :=
  "Could not map CSV columns. Make sure it contains UDI, Air temperature [K], Process temperature [K], Rotational speed [rpm], Torque [Nm], Tool wear [min], Type."

/-- Net state transition of the CSV load handler (reader.onload of
    handleCsvUpload) on the file text; the returned payload list holds the
    scoring requests it posts (always none). -/
def handleCsvUpload (s : AppState) (text : String) : AppState × List Payload :=
  match splitLines (jsTrim text) with
  | l0 :: l1 :: _ =>
      let header := parseCells l0
      let row := parseCells l1
      let uid := jsOrStr (jsOrStr (csvGet header row "UDI") (csvGet header row "uid"))
        (csvGet header row "UID")
      let airTemp := parseFloatJS (csvGet header row "Air temperature [K]")
      let procTemp := parseFloatJS (csvGet header row "Process temperature [K]")
      let rpm := parseFloatJS (csvGet header row "Rotational speed [rpm]")
      let torque := parseFloatJS (csvGet header row "Torque [Nm]")
      let wear := parseFloatJS (csvGet header row "Tool wear [min]")
      let typeRaw := jsTrim (jsGetD (csvGet header row "Type") "H")
      if uidFalsy uid || airTemp.isNaN || procTemp.isNaN || rpm.isNaN
          || torque.isNaN || wear.isNaN then
        ({ s with csvError := csvMapMsg }, [])
      else
        let ty := if typeRaw = "L" ∨ typeRaw = "M" ∨ typeRaw = "H" then typeRaw else "H"
        ({ s with
            csvError := ""
            form :=
              { s.form with
                  uid := uid.getD ""
                  air_temperature_k := airTemp
                  process_temperature_k := procTemp
                  rotational_speed_rpm := rpm
                  torque_nm := torque
                  tool_wear_min := wear
                  type := ty } }, [])
  | _ => ({ s with csvError := csvShortMsg }, [])

/-- Severity ranking object used by the table sort (App.jsx line 26);
    none models an undefined property read for any other risk string. -/
def RISK_ORDER : String → Option Int := fun s =>
  if s = "Red" then some 3
  else if s = "Yellow" then some 2
  else if s = "Green" then some 1
  else none

/-- Severity rank of the specification: Red(3) > Yellow(2) > Green(1);
    used only to state sortedness, with 0 for any other string. -/
def riskLevelRank (s : String) : Nat :=
  if s = "Red" then 3 else if s = "Yellow" then 2 else if s = "Green" then 1 else 0

/-- Comparator passed to the table sort; an undefined rank makes the
    subtraction NaN, which SortCompare treats as 0. -/
def riskCompare (a b : Asset) : Int :=
  match RISK_ORDER a.risk_level, RISK_ORDER b.risk_level with
  | some ra, some rb => rb - ra
  | _, _ => 0

/-- Insertion step of the stable sort: the new element precedes the first
    element it does not compare strictly greater than. -/
def sortInsert (c : Asset → Asset → Int) (x : Asset) : List Asset → List Asset
  | [] => [x]
  | y :: ys => if 0 < c x y then y :: sortInsert c x ys else x :: y :: ys

/-- Stable sort modelling Array.prototype.sort with a consistent
    comparator (negative means the first argument comes first). -/
def jsSort (c : Asset → Asset → Int) : List Asset → List Asset
  | [] => []
  | x :: xs => sortInsert c x (jsSort c xs)

/-- Row list rendered by the detailed table view: the empty registry
    renders an empty-state message with no rows, otherwise the assets
    sorted by the risk comparator. -/
def DetailedTableView (assets : List Asset) : List Asset :=
  if assets.isEmpty then [] else jsSort riskCompare assets

/-- Bar-chart bucket of the health summary view. -/
structure HealthBucket where
  name : String
  risk : String
  count : Nat
deriving DecidableEq, Repr

/-- Risk-level counting reduce of HealthSummaryView, as a function from
    risk strings to counts (the initial object has the three fixed keys at
    0, and absent keys read as 0 through the || 0 fallback). -/
def riskCounts (assets : List Asset) : String → Nat :=
  assets.foldl
    (fun acc a => fun s => if s = a.risk_level then acc s + 1 else acc s)
    (fun _ => 0)

/-- Bucket list rendered by the health summary view: the empty registry
    renders an empty-state message with no buckets, otherwise the three
    fixed buckets with their counts. -/
def HealthSummaryView (assets : List Asset) : List HealthBucket :=
  if assets.isEmpty then []
  else
    let counts := riskCounts assets
    [ { name := "Healthy", risk := "Green", count := counts "Green" },
      { name := "Monitoring Required", risk := "Yellow", count := counts "Yellow" },
      { name := "Critical", risk := "Red", count := counts "Red" } ]

/-- Registry id sequence. -/
def registryIds (l : List Asset) : List String := l.map Asset.id

/-- Session modelled as a fold of successful submissions: before each
    submission the operator may have edited the whole form, so each step
    carries the form contents and the scoring response. -/
def runSubmits (s : AppState) (subs : List (Form × PredictionResult)) : AppState :=
  subs.foldl (fun st fd => (handleSubmit { st with form := fd.1 } (Except.ok fd.2)).1) s

/-! Helper lemmas about the registry upsert. -/

theorem findIndexOpt_eq_none (p : Asset → Bool) (l : List Asset) :
    findIndexOpt p l = none ↔ ∀ a ∈ l, ¬ p a := by
  induction l with
  | nil => simp [findIndexOpt]
  | cons a rest ih =>
    by_cases h : p a
    · simp [findIndexOpt, h]
    · simp [findIndexOpt, h, ih]

theorem findIndexOpt_append_cons (p : Asset → Bool) (l1 l2 : List Asset) (b : Asset)
    (h1 : ∀ a ∈ l1, ¬ p a) (hb : p b) :
    findIndexOpt p (l1 ++ b :: l2) = some l1.length := by
  induction l1 with
  | nil => simp [findIndexOpt, hb]
  | cons a rest ih =>
    have ha : ¬ p a := h1 a (by simp)
    have ih2 := ih (fun x hx => h1 x (by simp [hx]))
    simp [findIndexOpt, ha, ih2]

theorem set_append_length (l1 l2 : List Asset) (b u : Asset) :
    (l1 ++ b :: l2).set l1.length u = l1 ++ u :: l2 := by
  induction l1 with
  | nil => simp
  | cons a rest ih => simp [List.set, ih]

theorem registryIds_set_of_find (l : List Asset) (u : Asset) (i : Nat)
    (h : findIndexOpt (fun a => a.id == u.id) l = some i) :
    registryIds (l.set i u) = registryIds l := by
  induction l generalizing i with
  | nil => simp [findIndexOpt] at h
  | cons a rest ih =>
    by_cases ha : a.id == u.id
    · simp [findIndexOpt, ha] at h
      have hid : a.id = u.id := by simpa using ha
      simp [← h, registryIds, List.set, hid]
    · simp [findIndexOpt, ha] at h
      obtain ⟨j, hj, hji⟩ := h
      have := ih j hj
      simp [← hji, registryIds, List.set] at this ⊢
      exact this

theorem upsert_nodup (l : List Asset) (u : Asset)
    (h : (registryIds l).Nodup) : (registryIds (upsertAssets l u)).Nodup := by
  unfold upsertAssets
  cases hf : findIndexOpt (fun a => a.id == u.id) l with
  | some i =>
    rw [registryIds_set_of_find l u i hf]
    exact h
  | none =>
    have hall : ∀ a ∈ l, ¬ (a.id == u.id) := (findIndexOpt_eq_none _ _).mp hf
    have hnm : u.id ∉ registryIds l := by
      simp only [registryIds, List.mem_map]
      rintro ⟨a, ha, hae⟩
      exact hall a ha (by simp [hae])
    have heq : registryIds (l ++ [u]) = registryIds l ++ [u.id] := by
      simp [registryIds]
    rw [heq]
    simp [List.nodup_append, h, hnm]

/-- C1: the registry upsert performed on prediction success appends a
    never-before-seen id at the end, and replaces an existing id in place,
    entirely and at its original (first-match) position; the successful
    branch of handleSubmit performs exactly this upsert. -/
theorem upsert_order_spec (l l1 l2 : List Asset) (b u : Asset) :
    ((∀ a ∈ l, a.id ≠ u.id) → upsertAssets l u = l ++ [u]) ∧
    ((∀ a ∈ l1, a.id ≠ u.id) → b.id = u.id →
      upsertAssets (l1 ++ b :: l2) u = l1 ++ u :: l2) ∧
    (∀ (s : AppState) (d : PredictionResult),
      (handleSubmit s (Except.ok d)).1.assets = upsertAssets s.assets (mkAsset s.form d)) := by
  refine ⟨?_, ?_, ?_⟩
  · intro hnew
    unfold upsertAssets
    have : findIndexOpt (fun a => a.id == u.id) l = none := by
      rw [findIndexOpt_eq_none]
      intro a ha
      simpa using hnew a ha
    rw [this]
  · intro h1 hb
    unfold upsertAssets
    have hfind : findIndexOpt (fun a => a.id == u.id) (l1 ++ b :: l2) = some l1.length := by
      apply findIndexOpt_append_cons
      · intro a ha
        simpa using h1 a ha
      · simpa using hb
    rw [hfind]
    exact set_append_length l1 l2 b u
  · intro s d
    simp [handleSubmit]

/-- Witness for C1 at the example of the specification: inserting assets
    with ids A, B, C and then upserting B replaces it in place, while
    upserting a fresh id D appends. -/
theorem upsert_order_spec_witness :
    upsertAssets
        [⟨"A", "H", JSNum.fin 1, JSNum.fin 1, JSNum.fin 1, JSNum.fin 1, "Green"⟩,
         ⟨"B", "H", JSNum.fin 2, JSNum.fin 2, JSNum.fin 2, JSNum.fin 2, "Green"⟩,
         ⟨"C", "H", JSNum.fin 3, JSNum.fin 3, JSNum.fin 3, JSNum.fin 3, "Green"⟩]
        ⟨"B", "L", JSNum.fin 9, JSNum.fin 9, JSNum.fin 9, JSNum.fin 9, "Red"⟩ =
      [⟨"A", "H", JSNum.fin 1, JSNum.fin 1, JSNum.fin 1, JSNum.fin 1, "Green"⟩,
       ⟨"B", "L", JSNum.fin 9, JSNum.fin 9, JSNum.fin 9, JSNum.fin 9, "Red"⟩,
       ⟨"C", "H", JSNum.fin 3, JSNum.fin 3, JSNum.fin 3, JSNum.fin 3, "Green"⟩] ∧
    upsertAssets
        [⟨"A", "H", JSNum.fin 1, JSNum.fin 1, JSNum.fin 1, JSNum.fin 1, "Green"⟩]
        ⟨"D", "H", JSNum.fin 4, JSNum.fin 4, JSNum.fin 4, JSNum.fin 4, "Green"⟩ =
      [⟨"A", "H", JSNum.fin 1, JSNum.fin 1, JSNum.fin 1, JSNum.fin 1, "Green"⟩,
       ⟨"D", "H", JSNum.fin 4, JSNum.fin 4, JSNum.fin 4, JSNum.fin 4, "Green"⟩] := by
  constructor
  · have h := (upsert_order_spec []
      [⟨"A", "H", JSNum.fin 1, JSNum.fin 1, JSNum.fin 1, JSNum.fin 1, "Green"⟩]
      [⟨"C", "H", JSNum.fin 3, JSNum.fin 3, JSNum.fin 3, JSNum.fin 3, "Green"⟩]
      ⟨"B", "H", JSNum.fin 2, JSNum.fin 2, JSNum.fin 2, JSNum.fin 2, "Green"⟩
      ⟨"B", "L", JSNum.fin 9, JSNum.fin 9, JSNum.fin 9, JSNum.fin 9, "Red"⟩).2.1
      (by decide) (by decide)
    simpa using h
  · have h := (upsert_order_spec
      [⟨"A", "H", JSNum.fin 1, JSNum.fin 1, JSNum.fin 1, JSNum.fin 1, "Green"⟩] [] []
      ⟨"D", "H", JSNum.fin 4, JSNum.fin 4, JSNum.fin 4, JSNum.fin 4, "Green"⟩
      ⟨"D", "H", JSNum.fin 4, JSNum.fin 4, JSNum.fin 4, JSNum.fin 4, "Green"⟩).1
      (by decide)
    simpa using h

/-- C2: starting from the empty registry, any sequence of successful
    prediction submissions leaves the registry with pairwise distinct ids. -/
theorem registry_ids_nodup (subs : List (Form × PredictionResult)) :
    (registryIds (runSubmits initAppState subs).assets).Nodup := by
  have key : ∀ (subs : List (Form × PredictionResult)) (s : AppState),
      (registryIds s.assets).Nodup → (registryIds (runSubmits s subs).assets).Nodup := by
    intro subs
    induction subs with
    | nil =>
      intro s h
      simpa [runSubmits] using h
    | cons fd rest ih =>
      intro s h
      have hstep :
          (registryIds ((handleSubmit { s with form := fd.1 } (Except.ok fd.2)).1.assets)).Nodup := by
        simp only [handleSubmit]
        exact upsert_nodup _ _ h
      have hrw : runSubmits s (fd :: rest) =
          runSubmits ((handleSubmit { s with form := fd.1 } (Except.ok fd.2)).1) rest := by
        simp [runSubmits]
      rw [hrw]
      exact ih _ hstep
  exact key subs initAppState (by simp [initAppState, registryIds])

/-! Helper lemmas about the table sort. -/

theorem sortInsert_front (c : Asset → Asset → Int) (x : Asset) (L : List Asset)
    (h : ∀ y ∈ L, ¬ 0 < c x y) : sortInsert c x L = x :: L := by
  cases L with
  | nil => rfl
  | cons y ys => simp [sortInsert, h y (by simp)]

theorem sortInsert_append_gt (c : Asset → Asset → Int) (x : Asset) (P S : List Asset)
    (h : ∀ y ∈ P, 0 < c x y) : sortInsert c x (P ++ S) = P ++ sortInsert c x S := by
  induction P with
  | nil => simp
  | cons y ys ih =>
    have hy : 0 < c x y := h y (by simp)
    have ih2 := ih (fun z hz => h z (by simp [hz]))
    simp [sortInsert, hy, ih2]

theorem riskCompare_le_of_mem (x y : Asset)
    (hx : x.risk_level = "Green" ∨ x.risk_level = "Yellow" ∨ x.risk_level = "Red")
    (hy : y.risk_level = "Green" ∨ y.risk_level = "Yellow" ∨ y.risk_level = "Red")
    (hxy : riskLevelRank y.risk_level ≤ riskLevelRank x.risk_level) :
    riskCompare x y ≤ 0 := by
  rcases hx with h1 | h1 | h1 <;> rcases hy with h2 | h2 | h2 <;>
    simp [riskLevelRank, h1, h2] at hxy ⊢ <;>
    simp [riskCompare, RISK_ORDER, h1, h2]

theorem jsSort_riskCompare_filter (l : List Asset)
    (h : ∀ a ∈ l, a.risk_level = "Green" ∨ a.risk_level = "Yellow" ∨ a.risk_level = "Red") :
    jsSort riskCompare l =
      l.filter (fun a => a.risk_level == "Red") ++
        l.filter (fun a => a.risk_level == "Yellow") ++
        l.filter (fun a => a.risk_level == "Green") := by
  induction l with
  | nil => simp [jsSort]
  | cons x xs ih =>
    have hx := h x (by simp)
    have hxs : ∀ a ∈ xs, a.risk_level = "Green" ∨ a.risk_level = "Yellow" ∨ a.risk_level = "Red" :=
      fun a ha => h a (by simp [ha])
    have ihx := ih hxs
    have memR : ∀ y ∈ xs.filter (fun a => a.risk_level == "Red"), y.risk_level = "Red" := by
      intro y hy
      have := (List.mem_filter.mp hy).2
      simpa using this
    have memY : ∀ y ∈ xs.filter (fun a => a.risk_level == "Yellow"), y.risk_level = "Yellow" := by
      intro y hy
      have := (List.mem_filter.mp hy).2
      simpa using this
    have memG : ∀ y ∈ xs.filter (fun a => a.risk_level == "Green"), y.risk_level = "Green" := by
      intro y hy
      have := (List.mem_filter.mp hy).2
      simpa using this
    have step1 : jsSort riskCompare (x :: xs) =
        sortInsert riskCompare x
          (xs.filter (fun a => a.risk_level == "Red") ++
            xs.filter (fun a => a.risk_level == "Yellow") ++
            xs.filter (fun a => a.risk_level == "Green")) := by
      simp [jsSort, ihx]
    rcases hx with h1 | h1 | h1
    · -- x is Green: it is inserted after every Red and Yellow entry,
      -- in front of the Green block.
      have hfront : sortInsert riskCompare x (xs.filter (fun a => a.risk_level == "Green")) =
          x :: xs.filter (fun a => a.risk_level == "Green") := by
        apply sortInsert_front
        intro y hy
        simp [riskCompare, RISK_ORDER, h1, memG y hy]
      rw [step1, sortInsert_append_gt, hfront]
      · simp [List.filter_cons, h1]
      · intro y hy
        rcases List.mem_append.mp hy with hm | hm
        · simp [riskCompare, RISK_ORDER, h1, memR y hm]
        · simp [riskCompare, RISK_ORDER, h1, memY y hm]
    · -- x is Yellow: it is inserted after the Red block, in front of the
      -- Yellow block.
      have hfront : sortInsert riskCompare x
          (xs.filter (fun a => a.risk_level == "Yellow") ++
            xs.filter (fun a => a.risk_level == "Green")) =
          x :: (xs.filter (fun a => a.risk_level == "Yellow") ++
            xs.filter (fun a => a.risk_level == "Green")) := by
        apply sortInsert_front
        intro y hy
        rcases List.mem_append.mp hy with hmem | hmem
        · simp [riskCompare, RISK_ORDER, h1, memY y hmem]
        · simp [riskCompare, RISK_ORDER, h1, memG y hmem]
      rw [step1, List.append_assoc, sortInsert_append_gt, hfront]
      · simp [List.filter_cons, h1, List.append_assoc]
      · intro y hy
        simp [riskCompare, RISK_ORDER, h1, memR y hy]
    · -- x is Red: it goes in front of everything.
      have hfront : sortInsert riskCompare x
          (xs.filter (fun a => a.risk_level == "Red") ++
            xs.filter (fun a => a.risk_level == "Yellow") ++
            xs.filter (fun a => a.risk_level == "Green")) =
          x :: (xs.filter (fun a => a.risk_level == "Red") ++
            xs.filter (fun a => a.risk_level == "Yellow") ++
            xs.filter (fun a => a.risk_level == "Green")) := by
        apply sortInsert_front
        intro y hy
        rcases List.mem_append.mp hy with hmem | hmem
        · rcases List.mem_append.mp hmem with hm2 | hm2
          · simp [riskCompare, RISK_ORDER, h1, memR y hm2]
          · simp [riskCompare, RISK_ORDER, h1, memY y hm2]
        · simp [riskCompare, RISK_ORDER, h1, memG y hmem]
      rw [step1, hfront]
      simp [List.filter_cons, h1]

/-- C3: on a registry whose risk levels all lie in Green/Yellow/Red, the
    detailed table view lists the Red assets, then the Yellow assets, then
    the Green assets, each block in input order (the unique stable
    descending sort by severity rank with no secondary key), and in
    particular its rows are sorted by non-increasing severity rank. -/
theorem detailedTable_sorted_stable (assets : List Asset)
    (h : ∀ a ∈ assets, a.risk_level = "Green" ∨ a.risk_level = "Yellow" ∨ a.risk_level = "Red") :
    DetailedTableView assets =
      assets.filter (fun a => a.risk_level == "Red") ++
        assets.filter (fun a => a.risk_level == "Yellow") ++
        assets.filter (fun a => a.risk_level == "Green") ∧
    (DetailedTableView assets).Pairwise
      (fun a b => riskLevelRank b.risk_level ≤ riskLevelRank a.risk_level) := by
  have memR : ∀ y ∈ assets.filter (fun a => a.risk_level == "Red"), y.risk_level = "Red" := by
    intro y hy
    have := (List.mem_filter.mp hy).2
    simpa using this
  have memY : ∀ y ∈ assets.filter (fun a => a.risk_level == "Yellow"), y.risk_level = "Yellow" := by
    intro y hy
    have := (List.mem_filter.mp hy).2
    simpa using this
  have memG : ∀ y ∈ assets.filter (fun a => a.risk_level == "Green"), y.risk_level = "Green" := by
    intro y hy
    have := (List.mem_filter.mp hy).2
    simpa using this
  have heq : DetailedTableView assets =
      assets.filter (fun a => a.risk_level == "Red") ++
        assets.filter (fun a => a.risk_level == "Yellow") ++
        assets.filter (fun a => a.risk_level == "Green") := by
    cases assets with
    | nil => simp [DetailedTableView]
    | cons a t =>
      have := jsSort_riskCompare_filter (a :: t) h
      simpa [DetailedTableView] using this
  refine ⟨heq, ?_⟩
  rw [heq, List.pairwise_append]
  refine ⟨?_, ?_, ?_⟩
  · rw [List.pairwise_append]
    refine ⟨?_, ?_, ?_⟩
    · apply List.pairwise_of_forall_mem_list
      intro a ha b hb
      simp [riskLevelRank, memR a ha, memR b hb]
    · apply List.pairwise_of_forall_mem_list
      intro a ha b hb
      simp [riskLevelRank, memY a ha, memY b hb]
    · intro a ha b hb
      simp [riskLevelRank, memR a ha, memY b hb]
  · apply List.pairwise_of_forall_mem_list
    intro a ha b hb
    simp [riskLevelRank, memG a ha, memG b hb]
  · intro a ha b hb
    rcases List.mem_append.mp ha with hm | hm
    · simp [riskLevelRank, memR a hm, memG b hb]
    · simp [riskLevelRank, memY a hm, memG b hb]

/-- Witness for C3 at the example of the specification: risk levels
    entered as Green, Red, Yellow, Red come out Red, Red, Yellow, Green
    with the two Red assets in their original relative order. -/
theorem detailedTable_sorted_stable_witness :
    DetailedTableView
        [⟨"M1", "H", JSNum.fin 1, JSNum.fin 1, JSNum.fin 1, JSNum.fin 1, "Green"⟩,
         ⟨"M2", "H", JSNum.fin 2, JSNum.fin 2, JSNum.fin 2, JSNum.fin 2, "Red"⟩,
         ⟨"M3", "H", JSNum.fin 3, JSNum.fin 3, JSNum.fin 3, JSNum.fin 3, "Yellow"⟩,
         ⟨"M4", "H", JSNum.fin 4, JSNum.fin 4, JSNum.fin 4, JSNum.fin 4, "Red"⟩] =
      [⟨"M2", "H", JSNum.fin 2, JSNum.fin 2, JSNum.fin 2, JSNum.fin 2, "Red"⟩,
       ⟨"M4", "H", JSNum.fin 4, JSNum.fin 4, JSNum.fin 4, JSNum.fin 4, "Red"⟩,
       ⟨"M3", "H", JSNum.fin 3, JSNum.fin 3, JSNum.fin 3, JSNum.fin 3, "Yellow"⟩,
       ⟨"M1", "H", JSNum.fin 1, JSNum.fin 1, JSNum.fin 1, JSNum.fin 1, "Green"⟩] := by
  have h := (detailedTable_sorted_stable
    [⟨"M1", "H", JSNum.fin 1, JSNum.fin 1, JSNum.fin 1, JSNum.fin 1, "Green"⟩,
     ⟨"M2", "H", JSNum.fin 2, JSNum.fin 2, JSNum.fin 2, JSNum.fin 2, "Red"⟩,
     ⟨"M3", "H", JSNum.fin 3, JSNum.fin 3, JSNum.fin 3, JSNum.fin 3, "Yellow"⟩,
     ⟨"M4", "H", JSNum.fin 4, JSNum.fin 4, JSNum.fin 4, JSNum.fin 4, "Red"⟩] (by decide)).1
  exact h.trans (by decide)

/-! Helper lemmas about the health summary counts. -/

theorem riskCounts_eq_countP (l : List Asset) (s : String) :
    riskCounts l s = l.countP (fun a => a.risk_level == s) := by
  have key : ∀ (l : List Asset) (acc : String → Nat) (s : String),
      l.foldl (fun acc a => fun t => if t = a.risk_level then acc t + 1 else acc t) acc s =
        acc s + l.countP (fun a => a.risk_level == s) := by
    intro l
    induction l with
    | nil =>
      intro acc s
      simp
    | cons a rest ih =>
      intro acc s
      rw [List.foldl_cons, ih]
      by_cases h : s = a.risk_level
      · simp [h, List.countP_cons]
        omega
      · have h2 : ¬ (a.risk_level == s) = true := by
          simp
          exact fun hh => h hh.symm
        simp [h, List.countP_cons, h2]
  simpa using key l (fun _ => 0) s

theorem countP_risk_sum (l : List Asset)
    (h : ∀ a ∈ l, a.risk_level = "Green" ∨ a.risk_level = "Yellow" ∨ a.risk_level = "Red") :
    l.countP (fun a => a.risk_level == "Green") + l.countP (fun a => a.risk_level == "Yellow") +
      l.countP (fun a => a.risk_level == "Red") = l.length := by
  induction l with
  | nil => simp
  | cons a rest ih =>
    have ha := h a (by simp)
    have ih2 := ih (fun x hx => h x (by simp [hx]))
    rcases ha with h1 | h1 | h1 <;> simp [List.countP_cons, h1] <;> omega

/-- Counterexample for C4 as stated: on the empty registry (all of whose
    assets vacuously carry a valid risk level) the health summary view
    renders its empty state and shows no buckets at all, not three
    zero-count buckets. -/
theorem healthSummary_empty_cex :
    HealthSummaryView ([] : List Asset) = [] ∧
    (HealthSummaryView ([] : List Asset)).length ≠ 3 := by
  constructor
  · rfl
  · decide

/-- C4 (amended to non-empty registries): on a non-empty registry whose
    risk levels all lie in Green/Yellow/Red, the health summary view shows
    exactly the three fixed buckets Green, Yellow, Red, each counting the
    assets with that risk level (zero-member buckets included with count
    0), and the three counts sum to the registry size. -/
theorem healthSummary_buckets (assets : List Asset) (hne : assets ≠ [])
    (h : ∀ a ∈ assets, a.risk_level = "Green" ∨ a.risk_level = "Yellow" ∨ a.risk_level = "Red") :
    HealthSummaryView assets =
      [⟨"Healthy", "Green", assets.countP (fun a => a.risk_level == "Green")⟩,
       ⟨"Monitoring Required", "Yellow", assets.countP (fun a => a.risk_level == "Yellow")⟩,
       ⟨"Critical", "Red", assets.countP (fun a => a.risk_level == "Red")⟩] ∧
    (HealthSummaryView assets).length = 3 ∧
    assets.countP (fun a => a.risk_level == "Green") +
      assets.countP (fun a => a.risk_level == "Yellow") +
      assets.countP (fun a => a.risk_level == "Red") = assets.length := by
  have hempty : assets.isEmpty = false := by
    cases assets with
    | nil => exact absurd rfl hne
    | cons a t => simp
  have heq : HealthSummaryView assets =
      [⟨"Healthy", "Green", assets.countP (fun a => a.risk_level == "Green")⟩,
       ⟨"Monitoring Required", "Yellow", assets.countP (fun a => a.risk_level == "Yellow")⟩,
       ⟨"Critical", "Red", assets.countP (fun a => a.risk_level == "Red")⟩] := by
    simp [HealthSummaryView, hempty, riskCounts_eq_countP]
  refine ⟨heq, ?_, countP_risk_sum assets h⟩
  rw [heq]
  rfl

/-- Witness for the amended C4 on a two-asset registry with one Green and
    one Red asset: three buckets, counts 1, 0, 1, summing to the length. -/
theorem healthSummary_buckets_witness :
    HealthSummaryView
        [⟨"M1", "H", JSNum.fin 1, JSNum.fin 1, JSNum.fin 1, JSNum.fin 1, "Green"⟩,
         ⟨"M2", "H", JSNum.fin 2, JSNum.fin 2, JSNum.fin 2, JSNum.fin 2, "Red"⟩] =
      [⟨"Healthy", "Green", 1⟩, ⟨"Monitoring Required", "Yellow", 0⟩, ⟨"Critical", "Red", 1⟩] := by
  have h := (healthSummary_buckets
    [⟨"M1", "H", JSNum.fin 1, JSNum.fin 1, JSNum.fin 1, JSNum.fin 1, "Green"⟩,
     ⟨"M2", "H", JSNum.fin 2, JSNum.fin 2, JSNum.fin 2, JSNum.fin 2, "Red"⟩]
    (by decide) (by decide)).1
  exact h.trans (by decide)

/-! Helper lemmas about JSNum arithmetic. -/

theorem fin_mul_fin (a b : ℚ) : JSNum.fin a * JSNum.fin b = JSNum.fin (a * b) := rfl

theorem fin_sub_fin (a b : ℚ) : JSNum.fin a - JSNum.fin b = JSNum.fin (a - b) := rfl

theorem fin_div_fin (a b : ℚ) :
    JSNum.fin a / JSNum.fin b =
      if b = 0 then (if a = 0 then JSNum.nan else if 0 < a then JSNum.inf else JSNum.negInf)
      else JSNum.fin (a / b) := rfl

theorem mul_nan_absorb (x : JSNum) : x * JSNum.nan = JSNum.nan := by
  cases x <;> rfl

theorem nan_mul_absorb (x : JSNum) : JSNum.nan * x = JSNum.nan := by
  cases x <;> rfl

theorem div_nan_absorb (x : JSNum) : x / JSNum.nan = JSNum.nan := by
  cases x <;> rfl

/-- C5: feature derivation is the stated pure function of the raw reading:
    power is speed times torque, temperature difference is process minus
    air temperature, power wear is power times tool wear, temperature power
    is temperature difference over power, and the one-hot flags satisfy
    type_l = 1 exactly for type L, type_m = 1 exactly for type M, never
    both 1, and (for type ranging over H, L, M) both 0 exactly for type H. -/
theorem derive_features_spec (f : Form) :
    (mkPayload f).power = f.rotational_speed_rpm * f.torque_nm ∧
    (mkPayload f).temperature_difference = f.process_temperature_k - f.air_temperature_k ∧
    (mkPayload f).power_wear = (f.rotational_speed_rpm * f.torque_nm) * f.tool_wear_min ∧
    (mkPayload f).temperature_power =
      (f.process_temperature_k - f.air_temperature_k) / (f.rotational_speed_rpm * f.torque_nm) ∧
    ((mkPayload f).type_l = 1 ↔ f.type = "L") ∧
    ((mkPayload f).type_m = 1 ↔ f.type = "M") ∧
    ¬ ((mkPayload f).type_l = 1 ∧ (mkPayload f).type_m = 1) ∧
    (f.type = "H" ∨ f.type = "L" ∨ f.type = "M" →
      ((mkPayload f).type_l = 0 ∧ (mkPayload f).type_m = 0 ↔ f.type = "H")) := by
  refine ⟨rfl, rfl, rfl, rfl, ?_, ?_, ?_, ?_⟩
  · by_cases hl : f.type = "L" <;> simp [mkPayload, hl]
  · by_cases hm : f.type = "M" <;> simp [mkPayload, hm]
  · rintro ⟨hl, hm⟩
    by_cases h : f.type = "L"
    · simp [mkPayload, h] at hm
    · simp [mkPayload, h] at hl
  · rintro (h | h | h) <;> simp [mkPayload, h]

/-- Witness for C5 at a type-H form: both one-hot flags are 0. -/
theorem derive_features_spec_witness :
    (mkPayload initAppState.form).type_l = 0 ∧ (mkPayload initAppState.form).type_m = 0 :=
  ((derive_features_spec initAppState.form).2.2.2.2.2.2.2 (Or.inl rfl)).mpr rfl

/-- C6: feature derivation is total: with finite inputs, a non-zero
    speed-torque product gives a finite temperature_power, a zero product
    gives a non-finite one (Infinity or NaN), and in every case the value
    is placed unchanged into the outgoing payload. -/
theorem temperature_power_edge (uid ty : String) (a p r t w : ℚ) :
    (r * t ≠ 0 →
      ((mkPayload ⟨uid, JSNum.fin a, JSNum.fin p, JSNum.fin r, JSNum.fin t, JSNum.fin w,
        ty⟩).temperature_power).isFinite = true) ∧
    (r * t = 0 →
      ((mkPayload ⟨uid, JSNum.fin a, JSNum.fin p, JSNum.fin r, JSNum.fin t, JSNum.fin w,
        ty⟩).temperature_power).isFinite = false) ∧
    (∀ f : Form, (mkPayload f).temperature_power =
      (f.process_temperature_k - f.air_temperature_k) / (f.rotational_speed_rpm * f.torque_nm)) := by
  refine ⟨?_, ?_, fun f => rfl⟩
  · intro hz
    simp [mkPayload, fin_mul_fin, fin_sub_fin, fin_div_fin, hz, JSNum.isFinite]
  · intro hz
    by_cases hpa : p - a = 0
    · simp [mkPayload, fin_mul_fin, fin_sub_fin, fin_div_fin, hz, hpa, JSNum.isFinite]
    · by_cases hlt : 0 < p - a
      · simp [mkPayload, fin_mul_fin, fin_sub_fin, fin_div_fin, hz, hpa, hlt, JSNum.isFinite]
      · simp [mkPayload, fin_mul_fin, fin_sub_fin, fin_div_fin, hz, hpa, hlt, JSNum.isFinite]

/-- Witness for C6 at the end-to-end example reading (1500 rpm, 40 Nm:
    finite result) and at a zero-speed reading (non-finite result). -/
theorem temperature_power_edge_witness :
    ((mkPayload ⟨"M1", JSNum.fin 300, JSNum.fin 310, JSNum.fin 1500, JSNum.fin 40, JSNum.fin 5,
      "H"⟩).temperature_power).isFinite = true ∧
    ((mkPayload ⟨"M1", JSNum.fin 300, JSNum.fin 310, JSNum.fin 0, JSNum.fin 40, JSNum.fin 5,
      "H"⟩).temperature_power).isFinite = false := by
  constructor
  · exact (temperature_power_edge "M1" "H" 300 310 1500 40 5).1 (by norm_num)
  · exact (temperature_power_edge "M1" "H" 300 310 0 40 5).2.1 (by norm_num)

/-! Helper lemmas about the CSV column lookup. -/

theorem indexOfOpt_eq_none (x : String) (l : List String) (h : x ∉ l) :
    indexOfOpt x l = none := by
  induction l with
  | nil => rfl
  | cons y ys ih =>
    have hxy : y ≠ x := fun he => h (by simp [he])
    have hys : x ∉ ys := fun hm => h (by simp [hm])
    simp [indexOfOpt, hxy, ih hys]

theorem csvGet_eq_none (header row : List String) (c : String) (h : c ∉ header) :
    csvGet header row c = none := by
  unfold csvGet
  rw [indexOfOpt_eq_none c header h]

/-- C7: when the scoring call fails, the submission surfaces the single
    generic error message, clears the pending result, leaves the asset
    registry (and the form) exactly as before, and has posted exactly one
    request (no retry). -/
theorem scoring_failure_frame (s : AppState) (e : String) :
    (handleSubmit s (Except.error e)).1.assets = s.assets ∧
    (handleSubmit s (Except.error e)).1.error = predictionErrorMsg ∧
    (handleSubmit s (Except.error e)).1.result = none ∧
    (handleSubmit s (Except.error e)).1.form = s.form ∧
    (handleSubmit s (Except.error e)).1.csvError = s.csvError ∧
    (handleSubmit s (Except.error e)).2 = [mkPayload s.form] ∧
    (handleSubmit s (Except.error e)).2.length = 1 := by
  simp [handleSubmit]

/-- C8: on a two-line tabular input, a missing required column (for example
    Torque [Nm]), any required numeric field that parses to NaN, or a
    missing/empty machine id makes the ingestion set only the validation
    error message, leaving the form, the registry and all other state
    unchanged and posting no scoring request; when validation passes, no
    error is reported and a Type value outside H, L, M silently falls back
    to H. -/
theorem csv_validation_guard (s : AppState) (text l0 l1 : String) (rest : List String)
    (hsplit : splitLines (jsTrim text) = l0 :: l1 :: rest) :
    ("Torque [Nm]" ∉ parseCells l0 →
      handleCsvUpload s text = ({ s with csvError := csvMapMsg }, [])) ∧
    (((parseFloatJS (csvGet (parseCells l0) (parseCells l1) "Air temperature [K]")).isNaN
        || (parseFloatJS (csvGet (parseCells l0) (parseCells l1) "Process temperature [K]")).isNaN
        || (parseFloatJS (csvGet (parseCells l0) (parseCells l1) "Rotational speed [rpm]")).isNaN
        || (parseFloatJS (csvGet (parseCells l0) (parseCells l1) "Torque [Nm]")).isNaN
        || (parseFloatJS (csvGet (parseCells l0) (parseCells l1) "Tool wear [min]")).isNaN) = true →
      handleCsvUpload s text = ({ s with csvError := csvMapMsg }, [])) ∧
    (uidFalsy (jsOrStr (jsOrStr (csvGet (parseCells l0) (parseCells l1) "UDI")
        (csvGet (parseCells l0) (parseCells l1) "uid"))
        (csvGet (parseCells l0) (parseCells l1) "UID")) = true →
      handleCsvUpload s text = ({ s with csvError := csvMapMsg }, [])) ∧
    (uidFalsy (jsOrStr (jsOrStr (csvGet (parseCells l0) (parseCells l1) "UDI")
        (csvGet (parseCells l0) (parseCells l1) "uid"))
        (csvGet (parseCells l0) (parseCells l1) "UID")) = false →
      (parseFloatJS (csvGet (parseCells l0) (parseCells l1) "Air temperature [K]")).isNaN = false →
      (parseFloatJS (csvGet (parseCells l0) (parseCells l1) "Process temperature [K]")).isNaN = false →
      (parseFloatJS (csvGet (parseCells l0) (parseCells l1) "Rotational speed [rpm]")).isNaN = false →
      (parseFloatJS (csvGet (parseCells l0) (parseCells l1) "Torque [Nm]")).isNaN = false →
      (parseFloatJS (csvGet (parseCells l0) (parseCells l1) "Tool wear [min]")).isNaN = false →
      ((handleCsvUpload s text).1.csvError = "" ∧
       (handleCsvUpload s text).1.form.type ∈ (["H", "L", "M"] : List String) ∧
       (jsTrim (jsGetD (csvGet (parseCells l0) (parseCells l1) "Type") "H") ∉
          (["L", "M", "H"] : List String) →
         (handleCsvUpload s text).1.form.type = "H"))) := by
  have hnan : ∀ c : String, c ∉ parseCells l0 →
      (parseFloatJS (csvGet (parseCells l0) (parseCells l1) c)).isNaN = true := by
    intro c hc
    rw [csvGet_eq_none _ _ c hc]
    rfl
  have core :
      (uidFalsy (jsOrStr (jsOrStr (csvGet (parseCells l0) (parseCells l1) "UDI")
          (csvGet (parseCells l0) (parseCells l1) "uid"))
          (csvGet (parseCells l0) (parseCells l1) "UID"))
        || (parseFloatJS (csvGet (parseCells l0) (parseCells l1) "Air temperature [K]")).isNaN
        || (parseFloatJS (csvGet (parseCells l0) (parseCells l1) "Process temperature [K]")).isNaN
        || (parseFloatJS (csvGet (parseCells l0) (parseCells l1) "Rotational speed [rpm]")).isNaN
        || (parseFloatJS (csvGet (parseCells l0) (parseCells l1) "Torque [Nm]")).isNaN
        || (parseFloatJS (csvGet (parseCells l0) (parseCells l1) "Tool wear [min]")).isNaN) = true →
      handleCsvUpload s text = ({ s with csvError := csvMapMsg }, []) := by
    intro hcond
    unfold handleCsvUpload
    rw [hsplit]
    simp [hcond]
  refine ⟨?_, ?_, ?_, ?_⟩
  · intro hmem
    exact core (by simp [hnan "Torque [Nm]" hmem])
  · intro hcond
    simp only [Bool.or_eq_true] at hcond
    rcases hcond with (((ha | hp) | hr) | ht) | hw
    · exact core (by simp [ha])
    · exact core (by simp [hp])
    · exact core (by simp [hr])
    · exact core (by simp [ht])
    · exact core (by simp [hw])
  · intro hcond
    exact core (by simp [hcond])
  · intro h0 h1 h2 h3 h4 h5
    unfold handleCsvUpload
    rw [hsplit]
    simp only [h0, h1, h2, h3, h4, h5, Bool.or_self, Bool.or_false, Bool.false_or]
    simp only [Bool.false_eq_true, if_false]
    refine ⟨trivial, ?_, ?_⟩
    · by_cases hty : jsTrim (jsGetD (csvGet (parseCells l0) (parseCells l1) "Type") "H") = "L"
        ∨ jsTrim (jsGetD (csvGet (parseCells l0) (parseCells l1) "Type") "H") = "M"
        ∨ jsTrim (jsGetD (csvGet (parseCells l0) (parseCells l1) "Type") "H") = "H"
      · simp only [hty, if_true]
        rcases hty with h | h | h <;> simp [h]
      · simp [hty]
    · intro hnm
      have hty : ¬ (jsTrim (jsGetD (csvGet (parseCells l0) (parseCells l1) "Type") "H") = "L"
          ∨ jsTrim (jsGetD (csvGet (parseCells l0) (parseCells l1) "Type") "H") = "M"
          ∨ jsTrim (jsGetD (csvGet (parseCells l0) (parseCells l1) "Type") "H") = "H") := by
        simpa using hnm
      simp [hty]

/-- Witness for C8 at the scenario of the specification: a two-line input
    whose header lacks Torque [Nm] sets the validation message, keeps all
    other state, and posts no scoring request. -/
theorem csv_validation_guard_witness :
    handleCsvUpload initAppState
        "UDI,Air temperature [K],Process temperature [K],Rotational speed [rpm],Tool wear [min],Type\nM1,300,310,1500,5,H" =
      ({ initAppState with csvError := csvMapMsg }, []) :=
  (csv_validation_guard initAppState
    "UDI,Air temperature [K],Process temperature [K],Rotational speed [rpm],Tool wear [min],Type\nM1,300,310,1500,5,H"
    "UDI,Air temperature [K],Process temperature [K],Rotational speed [rpm],Tool wear [min],Type"
    "M1,300,310,1500,5,H" [] (by decide)).1 (by decide)

/-- C9: loading a CSV never posts a scoring request and never changes the
    registry, the last prediction result, the scoring-error flag or the
    loading flag, so no dashboard view's data can change; an input that
    passes validation additionally clears the CSV error flag. -/
theorem csv_upload_pure_frame (s : AppState) (text : String) :
    (handleCsvUpload s text).2 = [] ∧
    (handleCsvUpload s text).1.assets = s.assets ∧
    (handleCsvUpload s text).1.result = s.result ∧
    (handleCsvUpload s text).1.error = s.error ∧
    (handleCsvUpload s text).1.loading = s.loading ∧
    DetailedTableView (handleCsvUpload s text).1.assets = DetailedTableView s.assets ∧
    HealthSummaryView (handleCsvUpload s text).1.assets = HealthSummaryView s.assets ∧
    (∀ (l0 l1 : String) (rest : List String), splitLines (jsTrim text) = l0 :: l1 :: rest →
      (uidFalsy (jsOrStr (jsOrStr (csvGet (parseCells l0) (parseCells l1) "UDI")
          (csvGet (parseCells l0) (parseCells l1) "uid"))
          (csvGet (parseCells l0) (parseCells l1) "UID"))
        || (parseFloatJS (csvGet (parseCells l0) (parseCells l1) "Air temperature [K]")).isNaN
        || (parseFloatJS (csvGet (parseCells l0) (parseCells l1) "Process temperature [K]")).isNaN
        || (parseFloatJS (csvGet (parseCells l0) (parseCells l1) "Rotational speed [rpm]")).isNaN
        || (parseFloatJS (csvGet (parseCells l0) (parseCells l1) "Torque [Nm]")).isNaN
        || (parseFloatJS (csvGet (parseCells l0) (parseCells l1) "Tool wear [min]")).isNaN) = false →
      (handleCsvUpload s text).1.csvError = "") := by
  have hframe : (handleCsvUpload s text).2 = [] ∧
      (handleCsvUpload s text).1.assets = s.assets ∧
      (handleCsvUpload s text).1.result = s.result ∧
      (handleCsvUpload s text).1.error = s.error ∧
      (handleCsvUpload s text).1.loading = s.loading := by
    unfold handleCsvUpload
    cases hsp : splitLines (jsTrim text) with
    | nil => simp
    | cons a t =>
      cases t with
      | nil => simp
      | cons b r =>
        split
        · dsimp only
          split <;> simp
        · next x h => exact absurd rfl (h a b r)
  refine ⟨hframe.1, hframe.2.1, hframe.2.2.1, hframe.2.2.2.1, hframe.2.2.2.2, ?_, ?_, ?_⟩
  · rw [hframe.2.1]
  · rw [hframe.2.1]
  · intro l0 l1 rest hsplit hvalid
    unfold handleCsvUpload
    rw [hsplit]
    simp [hvalid]

/-- Witness for C9 on a fully valid CSV input: no scoring request, registry
    untouched, CSV error flag cleared. -/
theorem csv_upload_pure_frame_witness :
    (handleCsvUpload initAppState
        "UDI,Air temperature [K],Process temperature [K],Rotational speed [rpm],Torque [Nm],Tool wear [min],Type\nM1,300,310,1500,40,5,L").1.csvError = "" ∧
    (handleCsvUpload initAppState
        "UDI,Air temperature [K],Process temperature [K],Rotational speed [rpm],Torque [Nm],Tool wear [min],Type\nM1,300,310,1500,40,5,L").1.assets = initAppState.assets ∧
    (handleCsvUpload initAppState
        "UDI,Air temperature [K],Process temperature [K],Rotational speed [rpm],Torque [Nm],Tool wear [min],Type\nM1,300,310,1500,40,5,L").2 = [] := by
  have h := csv_upload_pure_frame initAppState
    "UDI,Air temperature [K],Process temperature [K],Rotational speed [rpm],Torque [Nm],Tool wear [min],Type\nM1,300,310,1500,40,5,L"
  refine ⟨?_, h.2.1, h.1⟩
  exact h.2.2.2.2.2.2.2
    "UDI,Air temperature [K],Process temperature [K],Rotational speed [rpm],Torque [Nm],Tool wear [min],Type"
    "M1,300,310,1500,40,5,L" [] (by decide) (by decide)

/-- C10: the form change handler stores the raw parseFloat of whatever text
    is typed into a numeric field (so a non-numeric or empty input stores
    NaN), and a submission always posts exactly the payload derived from
    the current form with no validation gate, propagating NaN through the
    derived features into the outgoing request. -/
theorem manual_entry_unvalidated (s : AppState) (value : String)
    (resp : Except String PredictionResult) :
    ((handleChange s "air_temperature_k" value).form.air_temperature_k =
      parseFloatJS (some value)) ∧
    ((handleChange s "process_temperature_k" value).form.process_temperature_k =
      parseFloatJS (some value)) ∧
    ((handleChange s "rotational_speed_rpm" value).form.rotational_speed_rpm =
      parseFloatJS (some value)) ∧
    ((handleChange s "torque_nm" value).form.torque_nm = parseFloatJS (some value)) ∧
    ((handleChange s "tool_wear_min" value).form.tool_wear_min = parseFloatJS (some value)) ∧
    ((handleSubmit s resp).2 = [mkPayload s.form]) ∧
    (parseFloatJS (some value) = JSNum.nan →
      ((mkPayload (handleChange s "torque_nm" value).form).torque_nm = JSNum.nan ∧
       (mkPayload (handleChange s "torque_nm" value).form).power = JSNum.nan ∧
       (mkPayload (handleChange s "torque_nm" value).form).power_wear = JSNum.nan ∧
       (mkPayload (handleChange s "torque_nm" value).form).temperature_power = JSNum.nan ∧
       (handleSubmit (handleChange s "torque_nm" value) resp).2 =
         [mkPayload (handleChange s "torque_nm" value).form])) := by
  refine ⟨?_, ?_, ?_, ?_, ?_, ?_, ?_⟩
  · simp [handleChange, setNumField]
  · simp [handleChange, setNumField]
  · simp [handleChange, setNumField]
  · simp [handleChange, setNumField]
  · simp [handleChange, setNumField]
  · cases resp <;> simp [handleSubmit]
  · intro h
    refine ⟨?_, ?_, ?_, ?_, ?_⟩
    · simp [handleChange, setNumField, mkPayload, h]
    · simp [handleChange, setNumField, mkPayload, h, mul_nan_absorb]
    · simp [handleChange, setNumField, mkPayload, h, mul_nan_absorb, nan_mul_absorb]
    · simp [handleChange, setNumField, mkPayload, h, mul_nan_absorb, div_nan_absorb]
    · cases resp <;> simp [handleSubmit]

/-- Witness for C10: the empty string and a non-numeric string parse to
    NaN, an empty torque input stores NaN in the form, the derived power is
    NaN, and the submission still posts that payload. -/
theorem manual_entry_unvalidated_witness :
    parseFloatJS (some "") = JSNum.nan ∧
    parseFloatJS (some "abc") = JSNum.nan ∧
    (handleChange initAppState "torque_nm" "").form.torque_nm = JSNum.nan ∧
    (mkPayload (handleChange initAppState "torque_nm" "").form).power = JSNum.nan ∧
    (handleSubmit (handleChange initAppState "torque_nm" "")
        (Except.ok ⟨JSNum.fin 1, "Green"⟩)).2 =
      [mkPayload (handleChange initAppState "torque_nm" "").form] := by
  have hnan : parseFloatJS (some "") = JSNum.nan := by decide
  have h := manual_entry_unvalidated initAppState "" (Except.ok ⟨JSNum.fin 1, "Green"⟩)
  have h7 := h.2.2.2.2.2.2 hnan
  exact ⟨hnan, by decide, hnan ▸ h.2.2.2.1, h7.2.1, h7.2.2.2.2⟩

end MaintApp
